import Mathlib

/-
Verification of the transactional command-execution engine of the
DesignPatterns repository, as a shallow embedding in Lean 4.

Modules embedded (one Lean namespace each, mirroring the Python module):
  * AtomicTransfer : src/behavioral/Command/atomic_transfer_command.py
  * DeviceRunner   : src/behavioral/Command/device_command_runner.py
  * TextEditor     : src/behavioral/Command/text_editor_command.py
  * QueuedBus      : src/behavioral/Command/queued_command_bus.py

Monetary values are integers (cents); Python ints are modelled as Int,
counters that only ever hold non-negative values as Nat.
-/

set_option autoImplicit false

namespace AtomicTransfer

/-- Error raised by `BankAccount` operations (`AccountError` in the source). -/
inductive AccountError where
  | depositNegative
  | withdrawNegative
  | insufficientFunds
  deriving DecidableEq, Repr

/-- `TransactionError` of `atomic_transfer_command.py`: raised after rollback,
carrying the original exception as `cause`. -/
structure TransactionError (ε : Type) where
  cause : ε
  deriving DecidableEq, Repr

/-- The `BankAccount` dataclass. -/
structure BankAccount where
  name : String
  balance_cents : Int
  overdraft_limit_cents : Int
  deriving DecidableEq, Repr

/-- `BankAccount.deposit`: adds money; rejects negative amounts. -/
def BankAccount.deposit (a : BankAccount) (amount_cents : Int) :
    Except AccountError BankAccount :=
  if amount_cents < 0 then .error .depositNegative
  else .ok { a with balance_cents := a.balance_cents + amount_cents }

/-- `BankAccount.withdraw`: removes money if within the overdraft policy. -/
def BankAccount.withdraw (a : BankAccount) (amount_cents : Int) :
    Except AccountError BankAccount :=
  if amount_cents < 0 then .error .withdrawNegative
  else
    let next_balance := a.balance_cents - amount_cents
    if next_balance < -a.overdraft_limit_cents then .error .insufficientFunds
    else .ok { a with balance_cents := next_balance }

/-- A modelled leaf `Command` instance over a world `σ` with errors `ε`.
`execEff`/`undoEff` are the raw receiver effects of the body of
`execute`/`undo` (resulting world plus the raised error, if any); `executed`
is the `_executed` flag of the base `Command` class.  The flag discipline of
the source commands (`DepositCommand`, `WithdrawCommand`) is captured by
`MCmd.execute` / `MCmd.undo` below. -/
structure MCmd (σ ε : Type) where
  execEff : σ → σ × Option ε
  undoEff : σ → σ × Option ε
  executed : Bool

/-- `execute` of a leaf command: run the effect; on success set
`_executed = True`; on a raised error the flag is left unchanged. -/
def MCmd.execute {σ ε : Type} (c : MCmd σ ε) (s : σ) : MCmd σ ε × σ × Option ε :=
  match c.execEff s with
  | (s1, none) => ({ c with executed := true }, s1, none)
  | (s1, some e) => (c, s1, some e)

/-- `undo` of a leaf command: no-op when not executed; otherwise run the
compensating effect and clear the flag on success (on a raised error the
flag stays set, as in the source where the assignment follows the call). -/
def MCmd.undo {σ ε : Type} (c : MCmd σ ε) (s : σ) : MCmd σ ε × σ × Option ε :=
  if c.executed then
    match c.undoEff s with
    | (s1, none) => ({ c with executed := false }, s1, none)
    | (s1, some e) => (c, s1, some e)
  else (c, s, none)

/-- Events of a composite execution trace: which sub-command (by index) had
`execute`/`undo` invoked on it, and with what outcome. -/
inductive Ev (ε : Type) where
  | execOk (i : Nat)
  | execFail (i : Nat) (e : ε)
  | undoCall (i : Nat) (r : Option ε)
  deriving DecidableEq, Repr

/-- Indices of the `undoCall` events of a trace, in order. -/
def undoIndices {ε : Type} : List (Ev ε) → List Nat :=
  List.filterMap fun ev =>
    match ev with
    | .undoCall i _ => some i
    | _ => none

/-- True when every event of the trace is an `undoCall`. -/
def allUndos {ε : Type} (tr : List (Ev ε)) : Bool :=
  tr.all fun ev =>
    match ev with
    | .undoCall _ _ => true
    | _ => false

/-- Output of the forward pass of `AtomicCompositeCommand.execute`:
updated sub-commands, final world, number of sub-commands that executed
successfully, first raised error (if any), and the call trace. -/
structure FwdOut (σ ε : Type) where
  items : List (MCmd σ ε)
  world : σ
  count : Nat
  err : Option ε
  trace : List (Ev ε)

/-- The `for cmd in self._items: cmd.execute(); self._executed_count += 1`
loop, with sub-commands numbered from `i0`.  Stops at the first raised
error, leaving the remaining sub-commands untouched. -/
def fwdPass {σ ε : Type} (i0 : Nat) : List (MCmd σ ε) → σ → FwdOut σ ε
  | [], s => ⟨[], s, 0, none, []⟩
  | c :: cs, s =>
    match c.execute s with
    | (c1, s1, none) =>
      let o := fwdPass (i0 + 1) cs s1
      ⟨c1 :: o.items, o.world, o.count + 1, o.err, .execOk i0 :: o.trace⟩
    | (c1, s1, some e) => ⟨c1 :: cs, s1, 0, some e, [.execFail i0 e]⟩

/-- Output of the rollback loop: updated (index, sub-command) pairs in
processing order, final world, and the trace of `undo` calls. -/
structure RbOut (σ ε : Type) where
  items : List (Nat × MCmd σ ε)
  world : σ
  trace : List (Ev ε)

/-- The rollback loop `for cmd in reversed(self._items[:count]):
try: cmd.undo() except: pass`, applied to the already-reversed indexed
prefix.  Every raised undo error is swallowed and iteration continues. -/
def rollbackPass {σ ε : Type} : List (Nat × MCmd σ ε) → σ → RbOut σ ε
  | [], s => ⟨[], s, []⟩
  | (i, c) :: cs, s =>
    match c.undo s with
    | (c1, s1, r) =>
      let o := rollbackPass cs s1
      ⟨(i, c1) :: o.items, o.world, .undoCall i r :: o.trace⟩

/-- The `AtomicCompositeCommand` state: owned sub-commands, the
`_executed_count` counter and the inherited `_executed` flag. -/
structure AtomicCompositeCommand (σ ε : Type) where
  items : List (MCmd σ ε)
  executed_count : Nat
  executed : Bool

/-- Output of `AtomicCompositeCommand.execute`: updated composite, final
world, the raised `TransactionError` (if any) and the full call trace. -/
structure ExecOut (σ ε : Type) where
  comp : AtomicCompositeCommand σ ε
  world : σ
  err : Option (TransactionError ε)
  trace : List (Ev ε)

/-- `AtomicCompositeCommand.execute`: run sub-commands in order; on full
success set the flag and record the count; on the first failure undo the
executed prefix in reverse order (swallowing undo errors) and raise
`TransactionError` with the original exception as cause.  Note that on
failure `_executed_count` retains the count of the forward pass — the
source resets it to 0 only at the start of `execute` and in `undo`. -/
def AtomicCompositeCommand.execute {σ ε : Type}
    (a : AtomicCompositeCommand σ ε) (s : σ) : ExecOut σ ε :=
  let o := fwdPass 0 a.items s
  match o.err with
  | none =>
    ⟨{ a with items := o.items, executed_count := o.count, executed := true },
      o.world, none, o.trace⟩
  | some e =>
    let pre := ((List.range o.count).zip (o.items.take o.count)).reverse
    let rb := rollbackPass pre o.world
    let items1 := (rb.items.reverse.map Prod.snd) ++ o.items.drop o.count
    ⟨{ a with items := items1, executed_count := o.count, executed := false },
      rb.world, some ⟨e⟩, o.trace ++ rb.trace⟩

/-- `DepositCommand` over a single-account world: `execute` deposits,
`undo` withdraws the same amount.  A raised `AccountError` leaves the
account unchanged (the receiver checks before mutating). -/
def DepositCommand (amount_cents : Int) : MCmd BankAccount AccountError :=
  { execEff := fun a =>
      match a.deposit amount_cents with
      | .ok a1 => (a1, none)
      | .error e => (a, some e)
    undoEff := fun a =>
      match a.withdraw amount_cents with
      | .ok a1 => (a1, none)
      | .error e => (a, some e)
    executed := false }

/-- `WithdrawCommand` over a single-account world: `execute` withdraws,
`undo` re-deposits the same amount. -/
def WithdrawCommand (amount_cents : Int) : MCmd BankAccount AccountError :=
  { execEff := fun a =>
      match a.withdraw amount_cents with
      | .ok a1 => (a1, none)
      | .error e => (a, some e)
    undoEff := fun a =>
      match a.deposit amount_cents with
      | .ok a1 => (a1, none)
      | .error e => (a, some e)
    executed := false }

/-- `WithdrawCommand(source, amount)` viewed over the two-account world
`(source, destination)` used by `TransferCommand`. -/
def WithdrawFromSource (amount_cents : Int) :
    MCmd (BankAccount × BankAccount) AccountError :=
  { execEff := fun s =>
      match s.1.withdraw amount_cents with
      | .ok a1 => ((a1, s.2), none)
      | .error e => (s, some e)
    undoEff := fun s =>
      match s.1.deposit amount_cents with
      | .ok a1 => ((a1, s.2), none)
      | .error e => (s, some e)
    executed := false }

/-- `DepositCommand(destination, amount)` viewed over the two-account world
`(source, destination)` used by `TransferCommand`. -/
def DepositToDestination (amount_cents : Int) :
    MCmd (BankAccount × BankAccount) AccountError :=
  { execEff := fun s =>
      match s.2.deposit amount_cents with
      | .ok a1 => ((s.1, a1), none)
      | .error e => (s, some e)
    undoEff := fun s =>
      match s.2.withdraw amount_cents with
      | .ok a1 => ((s.1, a1), none)
      | .error e => (s, some e)
    executed := false }

/-- `TransferCommand(source, destination, amount)`: the atomic composite
[withdraw from source, deposit to destination]. -/
def TransferCommand (amount_cents : Int) :
    AtomicCompositeCommand (BankAccount × BankAccount) AccountError :=
  ⟨[WithdrawFromSource amount_cents, DepositToDestination amount_cents], 0, false⟩

end AtomicTransfer

namespace DeviceRunner

/-- `DeviceError` of `device_command_runner.py`. -/
inductive DeviceError where
  | notConnected
  | simulatedConnectFailure
  | simulatedDisconnectFailure
  | simulatedSetParamFailure
  | simulatedStartFailure
  | simulatedStopFailure
  | alreadyRunning (program : String)
  deriving DecidableEq, Repr

/-- Result wrapper returned by `Command.run` (the `value` payload of the
source dataclass is always `None` on the modelled paths and is omitted). -/
structure CommandResult (ε : Type) where
  success : Bool
  error : Option ε
  deriving DecidableEq, Repr

/-- `RetryPolicy` dataclass: `max_retries` additional tries after the first
attempt (a Python int, hence `Int`), plus the informational backoff. -/
structure RetryPolicy where
  max_retries : Int
  backoff_seconds : Int
  deriving DecidableEq, Repr

/-- The `while attempts < total` retry loop of `Command.run`, with
`fuel = total - attempts` remaining attempts, `calls` execute() invocations
made so far, and the last raised error.  `f k` is the outcome of the
`k`-th invocation of `execute()` (`none` = success). -/
def runAux {ε : Type} (f : Nat → Option ε) :
    Nat → Nat → Option ε → CommandResult ε × Nat
  | 0, calls, last_exc => (⟨false, last_exc⟩, calls)
  | fuel + 1, calls, _last_exc =>
    match f calls with
    | none => (⟨true, none⟩, calls + 1)
    | some e => runAux f fuel (calls + 1) (some e)

/-- `Command.run`: attempts `execute()` up to `1 + max(0, max_retries)`
times; returns the `CommandResult` together with the number of times
`execute()` was invoked.  It is a total function: the modelled `run`
never raises. -/
def commandRun {ε : Type} (f : Nat → Option ε) (p : RetryPolicy) :
    CommandResult ε × Nat :=
  runAux f (1 + (max 0 p.max_retries).toNat) 0 none

/-- A Python parameter value: either `None` or a payload.  `dict.get`
returns `none` both for a missing key and for a stored `None`, exactly as
in Python. -/
inductive PyVal where
  | none
  | int (n : Int)
  | str (s : String)
  deriving DecidableEq, Repr

/-- `self.params[key] = value` on an insertion-ordered dict. -/
def dictSet : List (String × PyVal) → String → PyVal → List (String × PyVal)
  | [], k, v => [(k, v)]
  | (k0, v0) :: rest, k, v =>
    if k0 = k then (k0, v) :: rest else (k0, v0) :: dictSet rest k v

/-- `self.params.get(key)` with Python's `None` default. -/
def dictGet : List (String × PyVal) → String → PyVal
  | [], _ => .none
  | (k0, v0) :: rest, k => if k0 = k then v0 else dictGet rest k

/-- `key in self.params`. -/
def dictHasKey : List (String × PyVal) → String → Bool
  | [], _ => false
  | (k0, _) :: rest, k => if k0 = k then true else dictHasKey rest k

/-- `self.params.pop(key, None)` (the resulting dict). -/
def dictPop : List (String × PyVal) → String → List (String × PyVal)
  | [], _ => []
  | (k0, v0) :: rest, k =>
    if k0 = k then rest else (k0, v0) :: dictPop rest k

/-- The `PLCDevice` receiver: connection flag, parameter dict, running
program, and the `fail_on_subjects` simulation flags. -/
structure PLCDevice where
  name : String
  connected : Bool
  params : List (String × PyVal)
  running_program : Option String
  fail_connect : Bool
  fail_disconnect : Bool
  fail_set_param : Bool
  fail_start_program : Bool
  fail_stop_program : Bool
  deriving DecidableEq, Repr

/-- `PLCDevice.set_param`: requires a connection, honours the simulated
failure flag, stores the value and returns the previous one. -/
def PLCDevice.set_param (d : PLCDevice) (key : String) (value : PyVal) :
    Except DeviceError (PyVal × PLCDevice) :=
  if d.connected = false then .error .notConnected
  else if d.fail_set_param then .error .simulatedSetParamFailure
  else
    .ok (dictGet d.params key, { d with params := dictSet d.params key value })

/-- The mutable state of a `SetParameterCommand` instance: constructor
arguments `key`/`value`, the recorded previous value `_prev`, the
`_had_prev` flag and the inherited `_executed` flag. -/
structure SetParameterCommand where
  key : String
  value : PyVal
  prev : PyVal
  had_prev : Bool
  executed : Bool
  deriving DecidableEq, Repr

/-- A fresh `SetParameterCommand(device, key, value)`. -/
def SetParameterCommand.mk0 (key : String) (value : PyVal) : SetParameterCommand :=
  ⟨key, value, .none, false, false⟩

/-- `SetParameterCommand.execute`: calls `set_param`, records `_prev`, and
sets `_had_prev := self._key in self._device.params` — evaluated on the
device state AFTER the `set_param` call, exactly as in the source. -/
def SetParameterCommand.execute (c : SetParameterCommand) (d : PLCDevice) :
    Except DeviceError (SetParameterCommand × PLCDevice) :=
  match d.set_param c.key c.value with
  | .error e => .error e
  | .ok (prev, d1) =>
    .ok ({ c with prev := prev, had_prev := dictHasKey d1.params c.key }, d1)

/-- `SetParameterCommand.run` with the default `RetryPolicy()` (zero
retries): a single `execute()` attempt; on success the base class sets
`_executed = True`.  A raised `set_param` error leaves the device
unchanged. -/
def SetParameterCommand.run (c : SetParameterCommand) (d : PLCDevice) :
    SetParameterCommand × PLCDevice × Bool :=
  match c.execute d with
  | .ok (c1, d1) => ({ c1 with executed := true }, d1, true)
  | .error _ => (c, d, false)

/-- `SetParameterCommand.undo`: no-op when not executed; otherwise restore
the previous value when `_had_prev`, else pop the key.  The source does not
reset `_executed` or `_prev` here. -/
def SetParameterCommand.undo (c : SetParameterCommand) (d : PLCDevice) :
    Except DeviceError (SetParameterCommand × PLCDevice) :=
  if c.executed then
    if c.had_prev then
      match d.set_param c.key c.prev with
      | .error e => .error e
      | .ok (_, d1) => .ok (c, d1)
    else
      .ok (c, { d with params := dictPop d.params c.key })
  else .ok (c, d)

end DeviceRunner

namespace TextEditor

/-- The `TextBuffer` receiver of `text_editor_command.py`.  Text is a list
of characters; Python slices clamp out-of-range indices exactly like
`List.take`/`List.drop`. -/
structure TextBuffer where
  text : List Char
  cursor : Nat
  deriving DecidableEq, Repr

/-- `TextBuffer.insert`: splice `s` in at the cursor and advance the cursor
by its length. -/
def TextBuffer.insert (b : TextBuffer) (s : List Char) : TextBuffer :=
  { text := b.text.take b.cursor ++ s ++ b.text.drop b.cursor
    cursor := b.cursor + s.length }

/-- `TextBuffer.delete`: remove `count` characters at the cursor, returning
the deleted substring (for undo). -/
def TextBuffer.delete (b : TextBuffer) (count : Nat) : List Char × TextBuffer :=
  ((b.text.drop b.cursor).take count,
    { b with text := b.text.take b.cursor ++ b.text.drop (b.cursor + count) })

/-- `TextBuffer.move_cursor`: clamp `pos` to `[0, len(text)]`, move the
cursor there and return the previous position. -/
def TextBuffer.move_cursor (b : TextBuffer) (pos : Int) : Nat × TextBuffer :=
  let p := (max 0 (min pos (b.text.length : Int))).toNat
  (b.cursor, { b with cursor := p })

/-- The editor command instances: `InsertText` (with its recorded
`_start_pos`), `DeleteText` (with its recorded `_deleted` text, the count
already clamped to `max(0, count)` by the constructor) and `MoveCursor`
(with its recorded `_prev` position). -/
inductive EditorCmd where
  | insertText (text : List Char) (start_pos : Option Nat)
  | deleteText (count : Nat) (deleted : List Char)
  | moveCursor (target : Int) (prev : Option Nat)
  deriving DecidableEq, Repr

/-- `execute` of an editor command, returning the updated command instance
and buffer.  `InsertText` records the cursor before inserting. -/
def EditorCmd.execute : EditorCmd → TextBuffer → EditorCmd × TextBuffer
  | .insertText t _, b => (.insertText t (some b.cursor), b.insert t)
  | .deleteText c _, b =>
    let r := b.delete c
    (.deleteText c r.1, r.2)
  | .moveCursor p _, b =>
    let r := b.move_cursor p
    (.moveCursor p (some r.1), r.2)

/-- `undo` of an editor command.  None of these commands tracks an
`executed` flag: `InsertText.undo` keeps `_start_pos`, `DeleteText.undo`
keeps `_deleted`, so repeated undos re-apply the compensation. -/
def EditorCmd.undo : EditorCmd → TextBuffer → EditorCmd × TextBuffer
  | .insertText t sp, b =>
    match sp with
    | none => (.insertText t none, b)
    | some p =>
      let r1 := b.move_cursor (p : Int)
      let r2 := r1.2.delete t.length
      (.insertText t sp, r2.2)
  | .deleteText c del, b => (.deleteText c del, b.insert del)
  | .moveCursor p pv, b =>
    match pv with
    | none => (.moveCursor p none, b)
    | some q => (.moveCursor p pv, (b.move_cursor (q : Int)).2)

/-- `MacroCommand` state: the owned commands and the `_executed` counter. -/
structure MacroCommand where
  items : List EditorCmd
  executed : Nat

/-- The `for cmd in self._items: cmd.execute(); self._executed += 1` loop
of `MacroCommand.execute` (editor commands never raise). -/
def macroExecLoop : List EditorCmd → TextBuffer → List EditorCmd × TextBuffer × Nat
  | [], b => ([], b, 0)
  | c :: cs, b =>
    let r := c.execute b
    let o := macroExecLoop cs r.2
    (r.1 :: o.1, o.2.1, o.2.2 + 1)

/-- `MacroCommand.execute`. -/
def MacroCommand.execute (m : MacroCommand) (b : TextBuffer) :
    MacroCommand × TextBuffer :=
  let o := macroExecLoop m.items b
  ({ items := o.1, executed := o.2.2 }, o.2.1)

/-- The `for cmd in reversed(self._items[:self._executed]): cmd.undo()`
loop of `MacroCommand.undo`, applied to the already-reversed prefix. -/
def macroUndoLoop : List EditorCmd → TextBuffer → List EditorCmd × TextBuffer
  | [], b => ([], b)
  | c :: cs, b =>
    let r := c.undo b
    let o := macroUndoLoop cs r.2
    (r.1 :: o.1, o.2)

/-- `MacroCommand.undo`: undo the executed prefix in reverse order, then
reset the counter. -/
def MacroCommand.undo (m : MacroCommand) (b : TextBuffer) :
    MacroCommand × TextBuffer :=
  let o := macroUndoLoop ((m.items.take m.executed).reverse) b
  ({ items := o.1.reverse ++ m.items.drop m.executed, executed := 0 }, o.2)

end TextEditor

namespace QueuedBus

/-- `RetryPolicy` dataclass of `queued_command_bus.py` (defaults
`max_retries=3`, `backoff_seconds=1`). -/
structure RetryPolicy where
  max_retries : Int
  backoff_seconds : Int
  deriving DecidableEq, Repr

/-- `CommandEnvelope`: the wrapped command is modelled by its behaviour
`beh`, where `beh k` is the outcome of the `k`-th invocation of its
`execute()` (`none` = success); plus the retry bookkeeping.  Because
`attempts` counts exactly the failed invocations so far, the worker always
invokes the command at index `attempts`. -/
structure CommandEnvelope (ε : Type) where
  beh : Nat → Option ε
  retry_policy : RetryPolicy
  attempts : Nat
  last_error : Option ε

/-- `EmptyQueueError` raised by `InMemoryQueue.dequeue`. -/
inductive EmptyQueueError where
  | mk
  deriving DecidableEq, Repr

/-- `InMemoryQueue.dequeue`: pop the head or raise `EmptyQueueError`. -/
def dequeue {ε : Type} (q : List (CommandEnvelope ε)) :
    Except EmptyQueueError (CommandEnvelope ε × List (CommandEnvelope ε)) :=
  match q with
  | [] => .error .mk
  | env :: rest => .ok (env, rest)

/-- `CommandWorker` state: the consumed queue (FIFO list, head first) and
the `_dead_letter` store. -/
structure CommandWorker (ε : Type) where
  queue : List (CommandEnvelope ε)
  dead_letter : List (CommandEnvelope ε)

/-- `CommandWorker.poll_once`: dequeue the head (empty queue → `false`,
nothing changed); execute; on success discard the envelope; on failure
increment `attempts`, record `last_error`, then requeue at the tail while
`attempts <= max_retries`, else append to the dead-letter store. -/
def CommandWorker.poll_once {ε : Type} (w : CommandWorker ε) :
    CommandWorker ε × Bool :=
  match dequeue w.queue with
  | .error _ => (w, false)
  | .ok (env, rest) =>
    match env.beh env.attempts with
    | none => ({ w with queue := rest }, true)
    | some e =>
      let env1 := { env with attempts := env.attempts + 1, last_error := some e }
      if (env1.attempts : Int) ≤ env1.retry_policy.max_retries then
        ({ w with queue := rest ++ [env1] }, true)
      else
        ({ w with queue := rest, dead_letter := w.dead_letter ++ [env1] }, true)

/-- `CommandWorker.drain(max_steps)`: repeat `poll_once` while it reports
progress and the step cap is not reached; return the final worker state,
the processed count and `len(self._dead_letter)`. -/
def CommandWorker.drain {ε : Type} (w : CommandWorker ε) :
    Nat → CommandWorker ε × Nat × Nat
  | 0 => (w, 0, w.dead_letter.length)
  | fuel + 1 =>
    let r := w.poll_once
    if r.2 then
      let o := r.1.drain fuel
      (o.1, o.2.1 + 1, o.1.dead_letter.length)
    else (r.1, 0, r.1.dead_letter.length)

/-- Iterated `poll_once` (the worker state after `n` poll steps). -/
def iterPoll {ε : Type} : Nat → CommandWorker ε → CommandWorker ε
  | 0, w => w
  | n + 1, w => iterPoll n w.poll_once.1

/-- Invariant of the live queue: no queued envelope has exhausted its
retry budget (true of every envelope created by `CommandBus.send`, which
starts at `attempts = 0` with a non-negative `max_retries`). -/
def QueueInv {ε : Type} (w : CommandWorker ε) : Prop :=
  ∀ env ∈ w.queue, (env.attempts : Int) ≤ env.retry_policy.max_retries

/-- Invariant of the dead-letter store: every stored envelope was retired
with exactly `max_retries + 1` attempts. -/
def DeadInv {ε : Type} (w : CommandWorker ε) : Prop :=
  ∀ env ∈ w.dead_letter, (env.attempts : Int) = env.retry_policy.max_retries + 1

end QueuedBus

namespace AtomicTransfer

/-- A sub-command over the world `Int` that always succeeds (increments the
world; its undo decrements it). -/
def okIntCmd : MCmd Int Unit :=
  ⟨fun s => (s + 1, none), fun s => (s - 1, none), false⟩

/-- A sub-command over the world `Int` whose `execute` always raises. -/
def failIntCmd : MCmd Int Unit :=
  ⟨fun s => (s, some ()), fun s => (s, none), false⟩

/-- A two-step composite whose second sub-command is the first to fail. -/
def twoStepComposite : AtomicCompositeCommand Int Unit :=
  ⟨[okIntCmd, failIntCmd], 0, false⟩

end AtomicTransfer

namespace DeviceRunner

/-- A freshly connected `PLCDevice("plc")` with no parameters, no running
program and no simulated failures. -/
def plcFresh : PLCDevice :=
  ⟨"plc", true, [], none, false, false, false, false, false⟩

/-- The command `SetParameterCommand(device, "speed", 5)` of the C4
scenario. -/
def setSpeedCmd : SetParameterCommand :=
  SetParameterCommand.mk0 "speed" (.int 5)

end DeviceRunner

namespace TextEditor

/-- The buffer `TextBuffer(text="ab", cursor=0)`. -/
def bufferAB : TextBuffer := ⟨['a', 'b'], 0⟩

/-- A fresh `InsertText(buffer, "X")`. -/
def insertX : EditorCmd := .insertText ['X'] none

/-- The macro `MacroCommand([InsertText("Hello"), InsertText(" "),
InsertText("World")])`. -/
def helloMacro : MacroCommand :=
  ⟨[.insertText "Hello".toList none, .insertText " ".toList none,
    .insertText "World".toList none], 0⟩

end TextEditor

namespace QueuedBus

/-- An envelope around a command whose `execute()` always succeeds, with
the default bus retry policy (`max_retries=3`). -/
def alwaysOkEnv : CommandEnvelope Unit :=
  ⟨fun _ => none, ⟨3, 1⟩, 0, none⟩

/-- An envelope around a command whose `execute()` always raises, with
`RetryPolicy(max_retries=1)`. -/
def alwaysFailEnv : CommandEnvelope Unit :=
  ⟨fun _ => some (), ⟨1, 1⟩, 0, none⟩

/-- The worker of the C6 scenario: C1 (always succeeds) and C2 (always
fails, `max_retries=1`) enqueued in that order, empty dead-letter store. -/
def fifoWorker : CommandWorker Unit :=
  ⟨[alwaysOkEnv, alwaysFailEnv], []⟩

/-- A worker holding one always-failing envelope with `max_retries=0`
(used to exercise the dead-letter invariant on a concrete input). -/
def oneShotWorker : CommandWorker Unit :=
  ⟨[⟨fun _ => some (), ⟨0, 0⟩, 0, none⟩], []⟩

end QueuedBus


/- ===================== Theorems ===================== -/

namespace AtomicTransfer

theorem fwdPass_items_length {σ ε : Type} :
    ∀ (i0 : Nat) (cs : List (MCmd σ ε)) (s : σ),
      (fwdPass i0 cs s).items.length = cs.length
  | _, [], _ => rfl
  | i0, c :: cs, s => by
    unfold fwdPass
    rcases hc : c.execute s with ⟨c1, s1, r⟩
    cases r with
    | none => simpa [hc] using fwdPass_items_length (i0 + 1) cs s1
    | some e => simp [hc]

theorem fwdPass_fail_spec {σ ε : Type} :
    ∀ (i0 : Nat) (cs : List (MCmd σ ε)) (s : σ) (e : ε),
      (fwdPass i0 cs s).err = some e →
      (fwdPass i0 cs s).trace =
        (List.range' i0 (fwdPass i0 cs s).count).map Ev.execOk ++
          [Ev.execFail (i0 + (fwdPass i0 cs s).count) e] ∧
      (fwdPass i0 cs s).count < cs.length
  | _, [], _, _ => by intro h; exact absurd h (by simp [fwdPass])
  | i0, c :: cs, s, e => by
    intro h
    rcases hc : c.execute s with ⟨c1, s1, r⟩
    cases r with
    | none =>
      have hrec := fwdPass_fail_spec (i0 + 1) cs s1 e
      simp only [fwdPass, hc] at h ⊢
      have hspec := hrec h
      have hlen : (c :: cs).length = cs.length + 1 := rfl
      refine ⟨?_, by omega⟩
      rw [hspec.1, List.range'_succ]
      simp [Nat.add_assoc, Nat.add_comm 1 (fwdPass (i0 + 1) cs s1).count]
    | some e0 =>
      simp only [fwdPass, hc] at h ⊢
      cases h
      simp

theorem undoIndices_cons {ε : Type} (i : Nat) (r : Option ε) (tr : List (Ev ε)) :
    undoIndices (.undoCall i r :: tr) = i :: undoIndices tr := by
  simp [undoIndices]

theorem allUndos_cons {ε : Type} (i : Nat) (r : Option ε) (tr : List (Ev ε)) :
    allUndos (.undoCall i r :: tr) = allUndos tr := by
  simp [allUndos]

theorem rollbackPass_trace_spec {σ ε : Type} :
    ∀ (l : List (Nat × MCmd σ ε)) (s : σ),
      undoIndices (rollbackPass l s).trace = l.map Prod.fst ∧
      allUndos (rollbackPass l s).trace = true
  | [], s => by simp [rollbackPass, undoIndices, allUndos]
  | (i, c) :: cs, s => by
    unfold rollbackPass
    rcases hu : c.undo s with ⟨c1, s1, r⟩
    have ih := rollbackPass_trace_spec cs s1
    simp only [hu, undoIndices_cons, allUndos_cons, List.map_cons]
    exact ⟨by rw [ih.1], ih.2⟩

theorem execute_fail_spec {σ ε : Type}
    (a : AtomicCompositeCommand σ ε) (s : σ) (i : Nat) (e : ε)
    (h1 : (fwdPass 0 a.items s).err = some e)
    (h2 : (fwdPass 0 a.items s).count = i) :
    (a.execute s).err = some ⟨e⟩ ∧
    (a.execute s).comp.executed = false ∧
    (a.execute s).comp.executed_count = i ∧
    ∃ tr2,
      (a.execute s).trace =
        (List.range i).map Ev.execOk ++ [Ev.execFail i e] ++ tr2 ∧
      undoIndices tr2 = (List.range i).reverse ∧
      allUndos tr2 = true := by
  have hspec := fwdPass_fail_spec 0 a.items s e h1
  have hlen := fwdPass_items_length 0 a.items s
  simp only [AtomicCompositeCommand.execute, h1]
  refine ⟨trivial, trivial, h2, ?_⟩
  refine ⟨(rollbackPass
    (((List.range (fwdPass 0 a.items s).count).zip
      ((fwdPass 0 a.items s).items.take (fwdPass 0 a.items s).count)).reverse)
    (fwdPass 0 a.items s).world).trace, ?_, ?_, ?_⟩
  · rw [hspec.1, h2, List.append_assoc]
    rw [← List.range_eq_range', Nat.zero_add]
    rw [List.append_assoc]
  · have hrb := rollbackPass_trace_spec
      (((List.range (fwdPass 0 a.items s).count).zip
        ((fwdPass 0 a.items s).items.take (fwdPass 0 a.items s).count)).reverse)
      (fwdPass 0 a.items s).world
    rw [hrb.1, List.map_reverse, List.map_fst_zip, h2]
    rw [List.length_range, List.length_take]
    omega
  · exact (rollbackPass_trace_spec _ _).2

end AtomicTransfer

/-- C1: if the `i`-th sub-command of an `AtomicCompositeCommand` is the
first to fail during `execute()` (the forward pass stops with `count = i`
and a raised error `e`), then the composite raises a `TransactionError`
whose cause is `e` (the failure surfaces to the caller), and the call trace
after the failing `execute` consists exactly of `undo` calls on the
sub-commands `[0, i)` in strictly reverse order, with any error raised by
an undo call swallowed (rollback continues and the surfaced error stays the
original one). -/
theorem claim_C1_atomic_rollback {σ ε : Type}
    (a : AtomicTransfer.AtomicCompositeCommand σ ε) (s : σ) (i : Nat) (e : ε)
    (h1 : (AtomicTransfer.fwdPass 0 a.items s).err = some e)
    (h2 : (AtomicTransfer.fwdPass 0 a.items s).count = i) :
    (a.execute s).err = some ⟨e⟩ ∧
    ∃ tr2,
      (a.execute s).trace =
        (List.range i).map AtomicTransfer.Ev.execOk ++
          [AtomicTransfer.Ev.execFail i e] ++ tr2 ∧
      AtomicTransfer.undoIndices tr2 = (List.range i).reverse ∧
      AtomicTransfer.allUndos tr2 = true := by
  have h := AtomicTransfer.execute_fail_spec a s i e h1 h2
  exact ⟨h.1, h.2.2.2⟩

/-- Witness for C1 at a concrete two-step composite over the world `Int`
whose second sub-command is the first to fail. -/
theorem claim_C1_atomic_rollback_witness :
    (AtomicTransfer.fwdPass 0 AtomicTransfer.twoStepComposite.items 0).err = some () ∧
    (AtomicTransfer.twoStepComposite.execute 0).err = some ⟨()⟩ :=
  ⟨by decide,
    (claim_C1_atomic_rollback AtomicTransfer.twoStepComposite 0 1 ()
      (by decide) (by decide)).1⟩

/-- C2 counterexample: for the concrete composite `twoStepComposite`
(first sub-command succeeds, second fails), `execute` raises, yet
`_executed_count` is `1`, not `0`: the exception handler of
`AtomicCompositeCommand.execute` never resets the counter. -/
theorem claim_C2_counterexample :
    (AtomicTransfer.twoStepComposite.execute 0).err.isSome = true ∧
    ¬((AtomicTransfer.twoStepComposite.execute 0).comp.executed_count = 0) := by
  decide

/-- C2 (amended): after a failed `execute()` of an `AtomicCompositeCommand`
whose `i`-th sub-command is the first to fail, the composite's `_executed`
flag is `False` and every sub-command with index below the failure point
has been undone, in strictly reverse order, before the failure is reported
to the caller — but `_executed_count` is NOT reset to 0: it retains `i`,
the number of successfully executed sub-commands (the counter is reset only
at the start of the next `execute()` and by a successful `undo()`). -/
theorem claim_C2_amended {σ ε : Type}
    (a : AtomicTransfer.AtomicCompositeCommand σ ε) (s : σ) (i : Nat) (e : ε)
    (h1 : (AtomicTransfer.fwdPass 0 a.items s).err = some e)
    (h2 : (AtomicTransfer.fwdPass 0 a.items s).count = i) :
    (a.execute s).comp.executed = false ∧
    (a.execute s).comp.executed_count = i ∧
    (a.execute s).err = some ⟨e⟩ ∧
    ∃ tr2,
      (a.execute s).trace =
        (List.range i).map AtomicTransfer.Ev.execOk ++
          [AtomicTransfer.Ev.execFail i e] ++ tr2 ∧
      AtomicTransfer.undoIndices tr2 = (List.range i).reverse ∧
      AtomicTransfer.allUndos tr2 = true := by
  have h := AtomicTransfer.execute_fail_spec a s i e h1 h2
  exact ⟨h.2.1, h.2.2.1, h.1, h.2.2.2⟩

/-- Witness for the amended C2 at the concrete two-step composite: the
failure point is `i = 1` and the counter indeed holds `1` afterwards. -/
theorem claim_C2_amended_witness :
    (AtomicTransfer.fwdPass 0 AtomicTransfer.twoStepComposite.items 0).count = 1 ∧
    (AtomicTransfer.twoStepComposite.execute 0).comp.executed_count = 1 :=
  ⟨by decide,
    (claim_C2_amended AtomicTransfer.twoStepComposite 0 1 ()
      (by decide) (by decide)).2.1⟩

/-- C3 counterexample: `InsertText("X")` on `TextBuffer("ab", cursor=0)`:
after `execute()` and one `undo()` the buffer is back to `"ab"`, but a
second `undo()` deletes again (`_start_pos` is never cleared) and leaves
`"b"` — a further state change after the first effective undo, refuting
idempotent undo for the editor commands. -/
theorem claim_C3_counterexample :
    (let r1 := TextEditor.insertX.execute TextEditor.bufferAB
    let r2 := r1.1.undo r1.2
    let r3 := r2.1.undo r2.2
    r2.2 = ⟨['a', 'b'], 0⟩ ∧ r3.2 = ⟨['b'], 0⟩ ∧ r3.2 ≠ r2.2) := by
  decide

/-- C3 (amended): undo is idempotent only for the commands that guard
`undo` behind the `_executed` flag — `DepositCommand` and
`WithdrawCommand`: calling `undo()` when the command has not executed is a
no-op, and a second `undo()` after the first produces no further change to
the command or the account; `MoveCursor.undo` is also repeat-safe.  The
editor commands `InsertText` and `DeleteText` have no such guard and a
second `undo()` does change the buffer again (see the counterexample). -/
theorem claim_C3_amended (amt : Int) (a : AtomicTransfer.BankAccount)
    (p : Int) (q : Option Nat) (b : TextEditor.TextBuffer) :
    ((AtomicTransfer.DepositCommand amt).undo a =
      (AtomicTransfer.DepositCommand amt, a, none)) ∧
    ((AtomicTransfer.WithdrawCommand amt).undo a =
      (AtomicTransfer.WithdrawCommand amt, a, none)) ∧
    (let c := { AtomicTransfer.DepositCommand amt with executed := true }
    let u1 := c.undo a
    let u2 := u1.1.undo u1.2.1
    u2.1 = u1.1 ∧ u2.2.1 = u1.2.1) ∧
    (let c := { AtomicTransfer.WithdrawCommand amt with executed := true }
    let u1 := c.undo a
    let u2 := u1.1.undo u1.2.1
    u2.1 = u1.1 ∧ u2.2.1 = u1.2.1) ∧
    (let c : TextEditor.EditorCmd := .moveCursor p q
    let u1 := c.undo b
    let u2 := u1.1.undo u1.2
    u2 = u1) := by
  refine ⟨rfl, rfl, ?_, ?_, ?_⟩
  · cases h : a.withdraw amt with
    | ok a1 =>
      simp [AtomicTransfer.MCmd.undo, AtomicTransfer.DepositCommand, h]
    | error e =>
      simp [AtomicTransfer.MCmd.undo, AtomicTransfer.DepositCommand, h]
  · cases h : a.deposit amt with
    | ok a1 =>
      simp [AtomicTransfer.MCmd.undo, AtomicTransfer.WithdrawCommand, h]
    | error e =>
      simp [AtomicTransfer.MCmd.undo, AtomicTransfer.WithdrawCommand, h]
  · cases q with
    | none => rfl
    | some q0 => simp [TextEditor.EditorCmd.undo, TextEditor.TextBuffer.move_cursor]

/-- C4: code-bug evaluation.  On a connected device with no parameters,
`SetParameterCommand("speed", 5).run()` succeeds, but `_had_prev` is
computed AFTER the `set_param` mutation and is therefore `True`; the
subsequent `undo()` then restores `params["speed"] = None` instead of
removing the key, so the key is still present afterwards even though it
was absent before `execute()` — contradicting the undo contract (and the
source's own comment "Remove the parameter if it did not exist before"). -/
theorem claim_C4_code_bug_eval :
    DeviceRunner.plcFresh.params = [] ∧
    (DeviceRunner.setSpeedCmd.run DeviceRunner.plcFresh).2.2 = true ∧
    (DeviceRunner.setSpeedCmd.run DeviceRunner.plcFresh).1.had_prev = true ∧
    ((DeviceRunner.setSpeedCmd.run DeviceRunner.plcFresh).1.undo
        (DeviceRunner.setSpeedCmd.run DeviceRunner.plcFresh).2.1) =
      .ok ((DeviceRunner.setSpeedCmd.run DeviceRunner.plcFresh).1,
        { DeviceRunner.plcFresh with params := [("speed", .none)] }) ∧
    DeviceRunner.dictHasKey [("speed", DeviceRunner.PyVal.none)] "speed" = true :=
  ⟨rfl, rfl, rfl, rfl, rfl⟩

/-- C6: with C1 (always succeeds, default policy) and C2 (always fails,
`max_retries=1`) enqueued in that order, the first poll completes C1 and
removes it while C2 is still pending (C1 is processed before any terminal
resolution of C2); draining then processes 3 polls in total, ends with an
empty queue, and leaves exactly C2's envelope in the dead-letter store
with `attempts = 2`. -/
theorem claim_C6_queue_fifo_deadletter :
    QueuedBus.CommandWorker.poll_once QueuedBus.fifoWorker =
      (⟨[QueuedBus.alwaysFailEnv], []⟩, true) ∧
    (QueuedBus.fifoWorker.drain 1000).1.dead_letter =
      [{ QueuedBus.alwaysFailEnv with attempts := 2, last_error := some () }] ∧
    (QueuedBus.fifoWorker.drain 1000).1.queue = [] ∧
    (QueuedBus.fifoWorker.drain 1000).2.1 = 3 ∧
    (QueuedBus.fifoWorker.drain 1000).2.2 = 1 :=
  ⟨rfl, rfl, rfl, rfl, rfl⟩

/-- C7: transferring 1000 cents from `BankAccount("A", 2000)` to
`BankAccount("B", 500)` succeeds and leaves balances (1000, 1500); the same
transfer from a source with balance 500 and zero overdraft raises
`TransactionError` and, after rollback, both balances are unchanged
(500, 500). -/
theorem claim_C7_ledger_transfer :
    (let r := (AtomicTransfer.TransferCommand 1000).execute
      (⟨"A", 2000, 0⟩, ⟨"B", 500, 0⟩)
    r.err = none ∧ r.world = (⟨"A", 1000, 0⟩, ⟨"B", 1500, 0⟩)) ∧
    (let r := (AtomicTransfer.TransferCommand 1000).execute
      (⟨"A", 500, 0⟩, ⟨"B", 500, 0⟩)
    r.err = some ⟨.insufficientFunds⟩ ∧ r.world = (⟨"A", 500, 0⟩, ⟨"B", 500, 0⟩)) := by
  decide

/-- C9: `dequeue()` on an empty queue signals `EmptyQueueError`, while
`poll_once()` on an empty queue returns `False` ("nothing processed")
without raising and without changing the queue, the dead-letter store or
any envelope. -/
theorem claim_C9_empty_queue {ε : Type} (dl : List (QueuedBus.CommandEnvelope ε)) :
    QueuedBus.dequeue ([] : List (QueuedBus.CommandEnvelope ε)) = .error .mk ∧
    QueuedBus.CommandWorker.poll_once ⟨[], dl⟩ = (⟨[], dl⟩, false) :=
  ⟨rfl, rfl⟩

namespace DeviceRunner

theorem runAux_all_fail {ε : Type} (f : Nat → Option ε) (err : Nat → ε)
    (hf : ∀ k, f k = some (err k)) :
    ∀ (fuel calls : Nat) (last : Option ε),
      runAux f (fuel + 1) calls last =
        (⟨false, some (err (calls + fuel))⟩, calls + fuel + 1)
  | 0, calls, last => by simp [runAux, hf calls]
  | fuel + 1, calls, last => by
    have ih := runAux_all_fail f err hf fuel (calls + 1) (some (err calls))
    have hstep : runAux f (fuel + 1 + 1) calls last =
        runAux f (fuel + 1) (calls + 1) (some (err calls)) := by
      conv_lhs => rw [runAux, hf calls]
    rw [hstep, ih]
    have h1 : calls + 1 + fuel = calls + (fuel + 1) := by omega
    rw [h1]

theorem runAux_first_success {ε : Type} (f : Nat → Option ε) :
    ∀ (fuel calls : Nat) (last : Option ε) (j : Nat),
      calls ≤ j → j < calls + fuel → f j = none →
      (∀ k, calls ≤ k → k < j → (f k).isSome) →
      runAux f fuel calls last = (⟨true, none⟩, j + 1)
  | 0, calls, last, j => by
    intro h1 h2 _ _
    exfalso
    omega
  | fuel + 1, calls, last, j => by
    intro h1 h2 h3 h4
    by_cases hcj : calls = j
    · subst hcj
      simp [runAux, h3]
    · have h5 : (f calls).isSome := h4 calls le_rfl (by omega)
      obtain ⟨e, he⟩ := Option.isSome_iff_exists.mp h5
      simp only [runAux, he]
      exact runAux_first_success f fuel (calls + 1) (some e) j (by omega) (by omega)
        h3 (fun k hk1 hk2 => h4 k (by omega) hk2)

end DeviceRunner

/-- C5: for a command with `RetryPolicy(max_retries=N)` (`N >= 0`): if every
`execute()` attempt raises, `run()` invokes `execute()` exactly `N + 1`
times and returns a failure `CommandResult` carrying the error of the last
attempt; `run()` is a total function (it never raises).  And if the first
successful attempt is attempt `j` (every earlier attempt raised), `run()`
returns a success result immediately after `j + 1` invocations — no
further attempts are made. -/
theorem claim_C5_retry_exhaustion {ε : Type} (N : Nat) (b : Int)
    (f : Nat → Option ε) (err : Nat → ε) (j : Nat) :
    ((∀ k, f k = some (err k)) →
      DeviceRunner.commandRun f ⟨(N : Int), b⟩ = (⟨false, some (err N)⟩, N + 1)) ∧
    ((f j = none ∧ ∀ k, k < j → (f k).isSome) → j ≤ N →
      DeviceRunner.commandRun f ⟨(N : Int), b⟩ = (⟨true, none⟩, j + 1)) := by
  constructor
  · intro hf
    unfold DeviceRunner.commandRun
    rw [show (1 + (max 0 (((N : Nat) : Int))).toNat) = N + 1 from by omega]
    simpa using DeviceRunner.runAux_all_fail f err hf N 0 none
  · intro ⟨h3, h4⟩ hj
    unfold DeviceRunner.commandRun
    rw [show (1 + (max 0 (((N : Nat) : Int))).toNat) = N + 1 from by omega]
    exact DeviceRunner.runAux_first_success f (N + 1) 0 none j (by omega) (by omega)
      h3 (fun k _ hk2 => h4 k hk2)

/-- Witness for C5 with `N = 1`: an always-failing command is attempted
exactly twice and yields a failure result with the last error; an
immediately-succeeding command is attempted exactly once. -/
theorem claim_C5_retry_exhaustion_witness :
    DeviceRunner.commandRun (fun _ => some (0 : Nat)) ⟨1, 0⟩ =
      (⟨false, some 0⟩, 2) ∧
    DeviceRunner.commandRun (fun _ => (none : Option Nat)) ⟨1, 0⟩ =
      (⟨true, none⟩, 1) :=
  ⟨(claim_C5_retry_exhaustion 1 0 (fun _ => some 0) (fun _ => 0) 0).1
      (fun _ => rfl),
    (claim_C5_retry_exhaustion 1 0 (fun _ => none) (fun _ => 0) 0).2
      ⟨rfl, fun k hk => absurd hk (by omega)⟩ (by omega)⟩

namespace QueuedBus

theorem poll_once_preserves {ε : Type} (w : CommandWorker ε)
    (hq : QueueInv w) :
    QueueInv w.poll_once.1 ∧
    (DeadInv w → DeadInv w.poll_once.1) ∧
    ∃ t, w.poll_once.1.dead_letter = w.dead_letter ++ t := by
  rcases w with ⟨q, dl⟩
  cases q with
  | nil =>
    exact ⟨hq, fun h => h, [], by simp [CommandWorker.poll_once, dequeue]⟩
  | cons env rest =>
    have henv := hq env (List.mem_cons_self env rest)
    have hrest : ∀ x ∈ rest, (x.attempts : Int) ≤ x.retry_policy.max_retries :=
      fun x hx => hq x (List.mem_cons_of_mem env hx)
    simp only [CommandWorker.poll_once, dequeue]
    cases hbeh : env.beh env.attempts with
    | none =>
      refine ⟨fun x hx => hrest x hx, fun h x hx => h x hx, [], by simp⟩
    | some e =>
      by_cases hle :
          ((env.attempts + 1 : Nat) : Int) ≤ env.retry_policy.max_retries
      · simp only [hle, if_pos]
        refine ⟨?_, fun h x hx => h x hx, [], by simp⟩
        intro x hx
        rcases List.mem_append.mp hx with hx1 | hx1
        · exact hrest x hx1
        · rcases List.mem_singleton.mp hx1 with rfl
          simpa using hle
      · simp only [hle, if_neg, not_false_iff]
        refine ⟨fun x hx => hrest x hx, ?_, ?_⟩
        · intro h x hx
          rcases List.mem_append.mp hx with hx1 | hx1
          · exact h x hx1
          · rcases List.mem_singleton.mp hx1 with rfl
            simp only
            push_cast
            push_cast at hle henv
            omega
        · exact ⟨[{ env with attempts := env.attempts + 1, last_error := some e }],
            rfl⟩

end QueuedBus

/-- C10: along any sequence of `poll_once()` steps of a `CommandWorker`
whose queued envelopes all still have retry budget
(`attempts <= max_retries`, as holds for every envelope created by
`CommandBus.send`) and whose dead-letter store already satisfies the
invariant, every envelope ever placed in the dead-letter store has
`attempts = retry_policy.max_retries + 1`, and the dead-letter store is
append-only: after any number of steps it is the original store extended
by a (possibly empty) suffix — a dead-lettered envelope is never removed
or modified by the worker. -/
theorem claim_C10_deadletter_invariant {ε : Type} (n : Nat)
    (w : QueuedBus.CommandWorker ε)
    (hq : QueuedBus.QueueInv w) (hd : QueuedBus.DeadInv w) :
    QueuedBus.QueueInv (QueuedBus.iterPoll n w) ∧
    QueuedBus.DeadInv (QueuedBus.iterPoll n w) ∧
    ∃ t, (QueuedBus.iterPoll n w).dead_letter = w.dead_letter ++ t := by
  induction n generalizing w with
  | zero => exact ⟨hq, hd, [], by simp [QueuedBus.iterPoll]⟩
  | succ n ih =>
    have hstep := QueuedBus.poll_once_preserves w hq
    obtain ⟨t1, ht1⟩ := hstep.2.2
    obtain ⟨hq1, hd1, t2, ht2⟩ := ih w.poll_once.1 hstep.1 (hstep.2.1 hd)
    refine ⟨hq1, hd1, t1 ++ t2, ?_⟩
    show (QueuedBus.iterPoll n w.poll_once.1).dead_letter = _
    rw [ht2, ht1, List.append_assoc]

/-- Witness for C10: one always-failing envelope with `max_retries=0`; a
single poll dead-letters it, and the dead-letter invariant holds (its
`attempts` equals `0 + 1`). -/
theorem claim_C10_deadletter_invariant_witness :
    QueuedBus.QueueInv QueuedBus.oneShotWorker ∧
    QueuedBus.DeadInv QueuedBus.oneShotWorker ∧
    QueuedBus.DeadInv (QueuedBus.iterPoll 1 QueuedBus.oneShotWorker) := by
  have hq : QueuedBus.QueueInv QueuedBus.oneShotWorker := by
    intro env h
    rcases List.mem_singleton.mp h with rfl
    simp
  have hd : QueuedBus.DeadInv QueuedBus.oneShotWorker := by
    intro env h
    simp [QueuedBus.oneShotWorker] at h
  exact ⟨hq, hd,
    (claim_C10_deadletter_invariant 1 QueuedBus.oneShotWorker hq hd).2.1⟩

namespace TextEditor

theorem insertText_execute_undo (b : TextBuffer) (t : List Char)
    (h : b.cursor ≤ b.text.length) :
    EditorCmd.undo (EditorCmd.execute (.insertText t none) b).1
      (EditorCmd.execute (.insertText t none) b).2 =
      (.insertText t (some b.cursor), b) := by
  obtain ⟨tx, c⟩ := b
  have hc : c ≤ tx.length := h
  simp only [EditorCmd.execute, EditorCmd.undo, TextBuffer.insert,
    TextBuffer.move_cursor, TextBuffer.delete]
  have hlen1 : (tx.take c ++ t ++ tx.drop c).length = tx.length + t.length := by
    simp only [List.length_append, List.length_take, List.length_drop]
    omega
  have hp : (max 0 (min (c : Int)
      ((tx.take c ++ t ++ tx.drop c).length : Int))).toNat = c := by
    rw [hlen1]
    omega
  rw [hp]
  have hA : (tx.take c).length = c := by
    rw [List.length_take]
    omega
  have htake : (tx.take c ++ t ++ tx.drop c).take c = tx.take c := by
    rw [List.append_assoc]
    exact List.take_left' hA
  have hAt : (tx.take c ++ t).length = c + t.length := by
    rw [List.length_append, hA]
  have hdrop : (tx.take c ++ t ++ tx.drop c).drop (c + t.length) = tx.drop c :=
    List.drop_left' hAt
  rw [htake, hdrop, List.take_append_drop]

theorem insert_preserves_bound (b : TextBuffer) (t : List Char)
    (h : b.cursor ≤ b.text.length) :
    (b.insert t).cursor ≤ (b.insert t).text.length := by
  obtain ⟨tx, c⟩ := b
  have hc : c ≤ tx.length := h
  simp only [TextBuffer.insert, List.length_append, List.length_take,
    List.length_drop]
  omega

theorem macroExecLoop_spec :
    ∀ (L : List EditorCmd) (b : TextBuffer),
      (macroExecLoop L b).2.2 = L.length ∧
      (macroExecLoop L b).1.length = L.length
  | [], _ => ⟨rfl, rfl⟩
  | c :: cs, b => by
    have ih := macroExecLoop_spec cs (c.execute b).2
    simp [macroExecLoop, ih.1, ih.2]

theorem macroUndoLoop_append :
    ∀ (l1 l2 : List EditorCmd) (b : TextBuffer),
      macroUndoLoop (l1 ++ l2) b =
        ((macroUndoLoop l1 b).1 ++ (macroUndoLoop l2 (macroUndoLoop l1 b).2).1,
          (macroUndoLoop l2 (macroUndoLoop l1 b).2).2)
  | [], l2, b => by simp [macroUndoLoop]
  | c :: cs, l2, b => by
    have ih := macroUndoLoop_append cs l2 (c.undo b).2
    simp [macroUndoLoop, ih]

theorem undoLoop_execLoop_inserts :
    ∀ (ts : List (List Char)) (b : TextBuffer),
      b.cursor ≤ b.text.length →
      (macroUndoLoop
        ((macroExecLoop (ts.map (fun t => EditorCmd.insertText t none)) b).1.reverse)
        (macroExecLoop (ts.map (fun t => EditorCmd.insertText t none)) b).2.1).2 = b
  | [], b, _ => rfl
  | t :: ts, b, h => by
    have hb1 := insert_preserves_bound b t h
    have ih := undoLoop_execLoop_inserts ts (b.insert t) hb1
    have hins := insertText_execute_undo b t h
    simp only [List.map_cons, macroExecLoop, EditorCmd.execute, List.reverse_cons]
    rw [macroUndoLoop_append]
    simp only [EditorCmd.execute] at ih
    rw [ih]
    simp only [macroUndoLoop]
    simp only [EditorCmd.execute] at hins
    rw [hins]

end TextEditor

/-- C8: the macro `[InsertText("Hello"), InsertText(" "), InsertText("World")]`
executed on an empty `TextBuffer` yields the text `"Hello World"`, and for
every buffer whose cursor is within the text (in particular the empty
buffer), undoing the macro right after executing it restores the buffer
exactly — undo after execute is the identity on the buffer. -/
theorem claim_C8_editor_macro_roundtrip (b : TextEditor.TextBuffer)
    (h : b.cursor ≤ b.text.length) :
    (TextEditor.helloMacro.execute ⟨[], 0⟩).2.text = "Hello World".toList ∧
    ((TextEditor.helloMacro.execute b).1.undo
      (TextEditor.helloMacro.execute b).2).2 = b := by
  constructor
  · decide
  · have hspec := TextEditor.macroExecLoop_spec TextEditor.helloMacro.items b
    have hloop := TextEditor.undoLoop_execLoop_inserts
      ["Hello".toList, " ".toList, "World".toList] b h
    simp only [TextEditor.MacroCommand.execute, TextEditor.MacroCommand.undo]
    rw [hspec.1, ← hspec.2, List.take_length]
    exact hloop

/-- Witness for C8 at the empty buffer. -/
theorem claim_C8_editor_macro_roundtrip_witness :
    (⟨[], 0⟩ : TextEditor.TextBuffer).cursor ≤
      (⟨[], 0⟩ : TextEditor.TextBuffer).text.length ∧
    ((TextEditor.helloMacro.execute ⟨[], 0⟩).1.undo
      (TextEditor.helloMacro.execute ⟨[], 0⟩).2).2 = ⟨[], 0⟩ :=
  ⟨by decide, (claim_C8_editor_macro_roundtrip ⟨[], 0⟩ (by decide)).2⟩
